import Mathlib

/-!
# Verification of the Obsidian MCP server plugin (tool-serving engine)

Shallow embedding of the TypeScript sources:
* `src/mcp-server.ts` — `MCPServer` (tool registration in `setupTools`,
  `start` with its transport error handler, per-tool `execute` wrappers);
* `src/settings.ts` — `ObsidianMCPServerPluginSettings` / `DEFAULT_SETTINGS`;
* `main.ts` — `ObsidianMCPServer` plugin (lifecycle `startMCPServer` /
  `stopMCPServer` / `restartMCPServer`, message lookup `t`).

JavaScript values appearing in arguments and results are modelled by a flat
JSON value type; numbers are modelled as `Int`; fallible host (Obsidian)
operations are modelled as `Except String` results passed to the embedded
handler, so that the handler's `try`/`catch` structure becomes a `match`.
-/

namespace ObsidianMCP

/-- A scalar JSON value, as appears in tool arguments and in the flat result
objects the tools build.  Numbers are modelled as integers. -/
inductive JVal where
  | null
  | bool (b : Bool)
  | num (n : Int)
  | str (s : String)
  deriving DecidableEq, Repr

/-- A tool response: either a JSON object (the argument of `JSON.stringify`
in each `execute`), or a raw string passed through unchanged (the success
path of `edit_file`, which returns `editFileTool`'s string directly). -/
inductive ToolResponse where
  | obj (fields : List (String × JVal))
  | raw (s : String)
  deriving DecidableEq, Repr

/-- Whether a response is a JSON object carrying an `error` field. -/
def ToolResponse.hasErrorField : ToolResponse → Bool
  | .obj fields => (fields.lookup "error").isSome
  | .raw _ => false

/-! ## Tool Definition Registry (`MCPServer.setupTools`, `settings.ts`)

`setupTools` is a sequence of `if (this.settings.tools.<name>) { addTool …}`
blocks.  The per-tool toggle table `settings.tools` is modelled as an
association list from tool name to `Bool`; a name missing from the list
models a missing property, which is `undefined` and hence falsy in the
JavaScript condition. -/

/-- The toggle table `settings.tools`: tool name to boolean.  An absent name
models an absent (hence `undefined`, hence falsy) property. -/
def ToolToggles := List (String × Bool)

/-- `ObsidianMCPServerPluginSettings` from `settings.ts`. -/
structure Settings where
  port : Nat
  startOnStartup : Bool
  tools : ToolToggles

/-- Truthiness of `this.settings.tools[n]`: a present `true` is truthy, a
present `false` is falsy, an absent property is `undefined`, falsy. -/
def toolIsEnabled (tools : ToolToggles) (n : String) : Bool :=
  match List.lookup n tools with
  | some b => b
  | none => false

/-- All tool names, in the registration order of `MCPServer.setupTools`
(`src/mcp-server.ts` lines 63–831). -/
def allToolNames : List String :=
  ["list_files", "read_file", "create_file", "edit_file", "delete_file",
   "create_folder", "delete_folder", "get_active_file", "open_file",
   "get_selection", "insert_text", "get_vault_info", "search_vault",
   "get_file_metadata", "get_links", "get_open_files", "list_commands",
   "execute_command", "rename_file"]

/-- The set of tool names registered by `setupTools`: each `addTool` call is
guarded by `if (this.settings.tools.<name>)`. -/
def setupTools (tools : ToolToggles) : List String :=
  allToolNames.filter (toolIsEnabled tools)

/-- Modelled from the spec's words (for comparison with `setupTools`):
"Filters `allDefinitions` to those whose `config.toolToggles[name]` is true
(default true if absent)". -/
def buildSnapshotSpec (tools : ToolToggles) : List String :=
  allToolNames.filter (fun n => (List.lookup n tools).getD true)

/-- `DEFAULT_SETTINGS` from `settings.ts` (lines 41–71): port 27123, all
tools enabled except `execute_command`. -/
def DEFAULT_SETTINGS : Settings where
  port := 27123
  startOnStartup := false
  tools :=
    [("list_files", true), ("read_file", true), ("create_file", true),
     ("edit_file", true), ("delete_file", true), ("create_folder", true),
     ("delete_folder", true), ("get_active_file", true), ("open_file", true),
     ("get_selection", true), ("insert_text", true), ("get_vault_info", true),
     ("search_vault", true), ("get_file_metadata", true), ("get_links", true),
     ("get_open_files", true), ("list_commands", true),
     ("execute_command", false), ("rename_file", true)]

/-! ## Transport Lifecycle Manager (`main.ts`, `MCPServer.start`/`stop`)

The plugin holds at most one `MCPServer` in its `mcpServer` field; `Running`
is `mcpServer = some _`, `Stopped` is `mcpServer = none`.  User-visible
`new Notice(this.t(...))` calls are recorded as an ordered list of message
tags, one per `t`-key used by the source. -/

/-- The translation keys passed to `new Notice(this.t(...))` by the
lifecycle code, with their interpolated parameters. -/
inductive NoticeMsg where
  | serverAlreadyRunning
  | serverStarted (port : Nat)
  | serverStartFailed (msg : String)
  | serverStopped
  | serverAlreadyStopped
  | startError (port : Nat)
  | stopError
  | genericError (msg : String)
  deriving DecidableEq, Repr

/-- The constructed `MCPServer` instance held in `this.mcpServer` (we track
the port its transport is bound to). -/
structure ServerInstance where
  port : Nat
  deriving DecidableEq, Repr

/-- The plugin state relevant to the lifecycle: the optional server
reference and the notices emitted so far. -/
structure PluginState where
  mcpServer : Option ServerInstance
  notices : List NoticeMsg
  deriving DecidableEq, Repr

/-- `MCPServer.start` (`src/mcp-server.ts` lines 39–61): attempts to bind
the transport (`this.server.start`, whose outcome is the `bindResult`
argument); on failure it emits `Notice(t("server.startError"))` and
re-throws the error (the `Except.error` in the first component). -/
def serverStart (bindResult : Except String Unit) (port : Nat) :
    Except String Unit × List NoticeMsg :=
  match bindResult with
  | .ok _ => (.ok (), [])
  | .error e => (.error e, [.startError port])

/-- `ObsidianMCPServer.startMCPServer` (`main.ts` lines 148–174): if a
server reference is held, only notice "already running"; otherwise build an
`MCPServer` on the current settings' port and call its `start`; on success
keep the reference and notice "server started"; on the re-thrown failure
clear the reference (`this.mcpServer = undefined`) and notice
"server start failed". -/
def startMCPServer (bindResult : Except String Unit) (settings : Settings)
    (s : PluginState) : PluginState :=
  match s.mcpServer with
  | some _ => { s with notices := s.notices ++ [.serverAlreadyRunning] }
  | none =>
    match serverStart bindResult settings.port with
    | (.ok _, ns) =>
        { mcpServer := some { port := settings.port },
          notices := s.notices ++ ns ++ [.serverStarted settings.port] }
    | (.error e, ns) =>
        { mcpServer := none,
          notices := s.notices ++ ns ++ [.serverStartFailed e] }

/-- `ObsidianMCPServer.stopMCPServer` (`main.ts` lines 176–184): stop and
drop the server reference if held, else notice "already stopped". -/
def stopMCPServer (s : PluginState) : PluginState :=
  match s.mcpServer with
  | some _ => { mcpServer := none, notices := s.notices ++ [.serverStopped] }
  | none => { s with notices := s.notices ++ [.serverAlreadyStopped] }

/-- The fixed settling delay of `restartMCPServer`:
`await new Promise((resolve) => setTimeout(resolve, 500))`. -/
def restartDelayMs : Nat := 500

/-- `ObsidianMCPServer.restartMCPServer` (`main.ts` lines 186–191):
`stopMCPServer()`, a fixed 500 ms delay, then `startMCPServer()`.  The
settings argument is the configuration read when `startMCPServer` runs
(after the delay); the returned `Nat` is the delay spent between the two. -/
def restartMCPServer (bindResult : Except String Unit) (settings : Settings)
    (s : PluginState) : PluginState × Nat :=
  (startMCPServer bindResult settings (stopMCPServer s), restartDelayMs)

/-- The transport error event delivered to `this.server.on("error", ...)`:
a JSON-RPC error code and a message. -/
structure ErrorEvent where
  code : Int
  message : String
  deriving DecidableEq, Repr

/-- The `error` listener installed by `MCPServer.start` (`src/mcp-server.ts`
lines 41–48): always `console.error`s (first component), and emits
`Notice(t("server.genericError"))` exactly when `error.code !== -32001`. -/
def serverOnError (e : ErrorEvent) : Bool × Option NoticeMsg :=
  (true, if e.code ≠ -32001 then some (.genericError e.message) else none)

/-! ## Tool Dispatcher: per-tool `execute` wrappers (`MCPServer.setupTools`)

Each registered tool's `execute` wraps its body in `try`/`catch` and turns
any thrown failure into a JSON object with an `error` field.  The outcomes
of the fallible host operations are passed in as `Except` values, so the
`catch` branches become `match` arms; the embedded functions are total, so
no failure can escape the wrapper. -/

/-- The `TFile` fields read by `get_active_file`. -/
structure ActiveFile where
  path : String
  name : String
  basename : String
  extension : String
  deriving DecidableEq, Repr

/-- `get_active_file.execute` (`src/mcp-server.ts` lines 288–309).
`activeFile` is `this.app.workspace.getActiveFile()` (`none` when the
workspace has no active document); `includeContent` is the validated
`include_content` argument (zod default `false`); `readResult` is the
outcome of `this.app.vault.read(activeFile)`, only consulted when
`includeContent` is true. -/
def getActiveFileExec (activeFile : Option ActiveFile) (includeContent : Bool)
    (readResult : Except String String) : ToolResponse :=
  match activeFile with
  | none => .obj [("error", .str "No active file"), ("active", .bool false)]
  | some f =>
    let base : List (String × JVal) :=
      [("active", .bool true), ("path", .str f.path), ("name", .str f.name),
       ("basename", .str f.basename), ("extension", .str f.extension)]
    if includeContent then
      match readResult with
      | .error msg => .obj [("error", .str ("Failed: " ++ msg))]
      | .ok content => .obj (base ++ [("content", .str content)])
    else .obj base

/-- `edit_file.execute` (`src/mcp-server.ts` lines 166–183), generic in the
validated parameter payload `α` (the schema lives in the separate
`tools/edit_file` module).  `parseResult` is the outcome of
`editFileParametersSchema.parse(input)` (a `ZodError`'s serialized issues on
failure); `tool` is `editFileTool`, whose thrown failure is the
`Except.error` case. -/
def editFileExec {α : Type} (parseResult : Except String α)
    (tool : α → Except String String) : ToolResponse :=
  match parseResult with
  | .error details =>
      .obj [("error", .str "Invalid parameters provided."),
            ("details", .str details)]
  | .ok input =>
      match tool input with
      | .error msg =>
          .obj [("error", .str ("Failed to execute edit_file tool: " ++ msg))]
      | .ok out => .raw out

/-! ## Parameter Validator (zod schemas declared in `setupTools`)

The parameter schemas are `z.object({...})` shapes built from `z.string()`,
`z.number()`, `z.boolean()`, `z.enum([...])`, `.optional()` and
`.default(v)`.  Embedded zod semantics for exactly these combinators:
a required field missing is an error; a present field must already have the
declared type (zod's plain `z.number()` does not coerce strings); a field
with a declared default is filled in when absent; unknown extra keys are
stripped. -/

/-- The declared type of a schema field. -/
inductive FieldType where
  | string
  | number
  | boolean
  | enumOf (options : List String)
  deriving DecidableEq, Repr

/-- One field of a `z.object` schema: its declared type, whether it is
`.optional()`, and its `.default(v)` value if any. -/
structure FieldSpec where
  type : FieldType
  optional : Bool
  default : Option JVal
  deriving DecidableEq, Repr

/-- A `z.object({...})` schema: named fields in declaration order. -/
abbrev Schema := List (String × FieldSpec)

/-- A field-level validation failure (one issue of a `ZodError`). -/
inductive ValidationError where
  | missing (field : String)
  | wrongType (field : String) (expected : FieldType)
  deriving DecidableEq, Repr

/-- zod's type check for a present value: the value must already be of the
declared type; no coercion is performed (`z.number().parse("5")` throws). -/
def checkType : FieldType → JVal → Bool
  | .string, .str _ => true
  | .number, .num _ => true
  | .boolean, .bool _ => true
  | .enumOf options, .str s => options.contains s
  | _, _ => false

/-- `schema.parse(rawArgs)` for the combinators used by `setupTools`:
walks the declared fields; a present value is kept unchanged if
well-typed, an absent defaulted field is filled with its default, an
absent optional field is dropped, an absent required field is an error;
keys not declared in the schema are stripped. -/
def validate : Schema → List (String × JVal) →
    Except ValidationError (List (String × JVal))
  | [], _ => .ok []
  | (name, spec) :: rest, raw =>
    match List.lookup name raw with
    | some v =>
        if checkType spec.type v then
          (validate rest raw).map (fun out => (name, v) :: out)
        else .error (.wrongType name spec.type)
    | none =>
        match spec.default with
        | some d => (validate rest raw).map (fun out => (name, d) :: out)
        | none =>
            if spec.optional then validate rest raw
            else .error (.missing name)

/-- The `search_vault` parameter schema (`src/mcp-server.ts` lines 487–498):
`query : z.string()`, `include_content : z.boolean().optional()`,
`limit : z.number().optional().default(20)`. -/
def searchVaultParams : Schema :=
  [("query", { type := .string, optional := false, default := none }),
   ("include_content", { type := .boolean, optional := true, default := none }),
   ("limit", { type := .number, optional := true, default := some (.num 20) })]

/-- The `open_file` parameter schema (`src/mcp-server.ts` lines 318–330):
`relative_path : z.string()`, `line : z.number().optional()`,
`new_leaf : z.boolean().optional()`. -/
def openFileParams : Schema :=
  [("relative_path", { type := .string, optional := false, default := none }),
   ("line", { type := .number, optional := true, default := none }),
   ("new_leaf", { type := .boolean, optional := true, default := none })]

/-! ## Localized message lookup (`ObsidianMCPServer.t`, `main.ts` 53–84) -/

/-- A translation catalog node: nested JSON objects of strings, as loaded
from `locales/en.json` / `locales/zh.json`. -/
inductive Tr where
  | leaf (s : String)
  | node (entries : List (String × Tr))

/-- The plugin's two supported languages (`["en", "zh"].includes(lang)`
forces `currentLanguage` into this set, defaulting to `en`). -/
inductive Lang where
  | en
  | zh
  deriving DecidableEq, Repr

/-- `this.translations`: the English catalog always loaded, the Chinese one
only when the current language is `zh`. -/
structure Translations where
  en : Tr
  zh : Option Tr

/-- `this.translations[lang]`. -/
def getCatalog (tr : Translations) : Lang → Option Tr
  | .en => some tr.en
  | .zh => tr.zh

/-- The inner `findTranslation` of `t`: walk the dotted-key components into
nested objects; return the reached value only if it is a string. -/
def findTr : List String → Tr → Option String
  | [], .leaf s => some s
  | [], .node _ => none
  | _ :: _, .leaf _ => none
  | k :: ks, .node entries =>
    match List.lookup k entries with
    | some child => findTr ks child
    | none => none

/-- Index of the first occurrence of `pat` in a character list (the JS
`String.prototype.indexOf`); `some 0` on an empty pattern. -/
def firstIndexOf (pat : List Char) : List Char → Option Nat
  | [] => if pat.isPrefixOf ([] : List Char) then some 0 else none
  | c :: t =>
    if pat.isPrefixOf (c :: t) then some 0
    else (firstIndexOf pat t).map (fun i => i + 1)

/-- JavaScript `String.prototype.replace` with a string pattern: replaces
only the first occurrence of `pat` in `s`. -/
def replaceFirst (s pat rep : String) : String :=
  match firstIndexOf pat.data s.data with
  | none => s
  | some i => ⟨s.data.take i ++ rep.data ++ s.data.drop (i + pat.data.length)⟩

/-- Fuelled worker for `jsSplit` (the fuel bounds the number of separator
occurrences; `length + 1` always suffices for a non-empty separator). -/
def jsSplitAux (sep : List Char) : Nat → List Char → List (List Char)
  | 0, s => [s]
  | fuel + 1, s =>
    match firstIndexOf sep s with
    | none => [s]
    | some i => s.take i :: jsSplitAux sep fuel (s.drop (i + sep.length))

/-- JavaScript `String.prototype.split` with a non-empty string separator
(as used by `key.split(".")`). -/
def jsSplit (s sep : String) : List String :=
  if sep.data.isEmpty then [s]
  else (jsSplitAux sep.data (s.data.length + 1) s.data).map String.mk

/-- JavaScript `String.prototype.toLowerCase` (on the ASCII names involved). -/
def jsToLower (s : String) : String :=
  ⟨s.data.map Char.toLower⟩

/-- The parameter substitution of `t`: for each `(k, v)` in `params`,
replace the first occurrence of the placeholder `{k}` by `v`. -/
def substParams (params : List (String × String)) (s : String) : String :=
  params.foldl (fun acc p => replaceFirst acc ("\x7b" ++ p.1 ++ "\x7d") p.2) s

/-- `ObsidianMCPServer.t(key, params)` (`main.ts` lines 53–84): split the
key on dots; look it up in the current language's catalog; if undefined and
the current language is not English, fall back to the English catalog; if
still undefined, fall back to the literal key; finally substitute the
parameter placeholders. -/
def tLookup (translations : Translations) (currentLanguage : Lang)
    (key : String) (params : List (String × String)) : String :=
  let keys := jsSplit key "."
  let fromLang := (getCatalog translations currentLanguage).bind (findTr keys)
  let withFallback :=
    if fromLang = none ∧ currentLanguage ≠ Lang.en then
      findTr keys translations.en
    else fromLang
  substParams params (withFallback.getD key)

/-! ## `search_vault.execute` (`src/mcp-server.ts` lines 499–531) -/

/-- The `TFile` fields used by `search_vault`. -/
structure MdFile where
  path : String
  name : String
  basename : String
  deriving DecidableEq, Repr

/-- One entry of the `results` array built by `search_vault`: the file
fields plus the optional `content` added when `include_content` is set. -/
structure SearchEntry where
  path : String
  name : String
  basename : String
  content : Option String
  deriving DecidableEq, Repr

/-- The JSON shape returned by `search_vault.execute`: the success object
`{query, count, results}` or the catch-branch `{error: ...}` object. -/
inductive SearchOutput where
  | ok (query : String) (count : Nat) (results : List SearchEntry)
  | err (msg : String)
  deriving DecidableEq, Repr

/-- JavaScript `Array.prototype.slice(0, e)`: a negative end index counts
from the end of the array (clamped at 0). -/
def jsSliceTo {α : Type} (l : List α) (e : Int) : List α :=
  if e < 0 then l.take ((l.length + e : Int)).toNat else l.take e.toNat

/-- JavaScript `String.prototype.includes`. -/
def jsIncludes (s sub : String) : Bool :=
  (firstIndexOf sub.data s.data).isSome

/-- The `Promise.all(matches.map(...))` of `search_vault`: build one result
entry per matched file, reading its content via `readF` when
`includeContent` is set; a failing read rejects the whole batch. -/
def buildResults (readF : String → Except String String)
    (includeContent : Bool) : List MdFile → Except String (List SearchEntry)
  | [] => .ok []
  | f :: fs =>
    match (if includeContent then (readF f.path).map some else .ok none) with
    | .error e => .error e
    | .ok c =>
      match buildResults readF includeContent fs with
      | .error e => .error e
      | .ok rest =>
          .ok ({ path := f.path, name := f.name, basename := f.basename,
                 content := c } :: rest)

/-- `search_vault.execute`: `files` is `vault.getMarkdownFiles()`; `readF`
is `vault.read` by path; the arguments are the validated input, where zod's
`.default(20)` has already filled an absent `limit` (`limitArg = none`
models a call without the field, filled to 20 before the body runs).  The
body lowercases the query, re-defaults a falsy limit (`input.limit || 20`),
filters paths by substring, slices to the limit, and reports
`count = results.length`. -/
def searchVaultExec (files : List MdFile) (readF : String → Except String String)
    (query : String) (includeContentArg : Option Bool) (limitArg : Option Int) :
    SearchOutput :=
  let limitInput : Int := limitArg.getD 20
  let q := jsToLower query
  let limit : Int := if limitInput = 0 then 20 else limitInput
  let hits := jsSliceTo (files.filter (fun f => jsIncludes (jsToLower f.path) q)) limit
  match buildResults readF (includeContentArg.getD false) hits with
  | .error msg => .err ("Failed to search vault: " ++ msg)
  | .ok results => .ok query results.length results

theorem toolIsEnabled_eq_true_iff (tools : ToolToggles) (n : String) :
    toolIsEnabled tools n = true ↔ List.lookup n tools = some true := by
  unfold toolIsEnabled
  cases h : List.lookup n tools with
  | none => simp
  | some b => simp

/-- `stop` always leaves the plugin without a held server reference. -/
theorem stopMCPServer_mcpServer (s : PluginState) :
    (stopMCPServer s).mcpServer = none := by
  unfold stopMCPServer
  cases s.mcpServer <;> rfl

/-- A successful `buildResults` yields one entry per matched file. -/
theorem buildResults_length (readF : String → Except String String)
    (includeContent : Bool) :
    ∀ (l : List MdFile) (rs : List SearchEntry),
      buildResults readF includeContent l = .ok rs → rs.length = l.length := by
  intro l
  induction l with
  | nil =>
    intro rs h
    simp only [buildResults] at h
    cases h
    rfl
  | cons f fs ih =>
    intro rs h
    simp only [buildResults] at h
    cases hc : (if includeContent then (readF f.path).map some else .ok none) with
    | error e => rw [hc] at h; cases h
    | ok c =>
      rw [hc] at h
      cases hrest : buildResults readF includeContent fs with
      | error e => rw [hrest] at h; cases h
      | ok rest =>
        rw [hrest] at h
        cases h
        simp [ih rest hrest]

end ObsidianMCP

namespace ObsidianMCP

/-- C1 (amended): a tool name is in the active snapshot exactly when its
toggle is present and `true`; an absent toggle excludes the tool (the
JavaScript guard `if (this.settings.tools[n])` treats `undefined` as falsy). -/
theorem snapshot_mem_iff_toggle_true (tools : ToolToggles) (n : String) :
    n ∈ setupTools tools ↔ n ∈ allToolNames ∧ List.lookup n tools = some true := by
  unfold setupTools
  rw [List.mem_filter, toolIsEnabled_eq_true_iff]

/-- C1 counterexample: with an empty toggle table (every toggle absent), the
spec's snapshot (`default true if absent`) includes `list_files`, but the
code's `setupTools` excludes it. -/
theorem snapshot_absent_toggle_counterexample :
    "list_files" ∈ buildSnapshotSpec [] ∧ "list_files" ∉ setupTools [] := by
  constructor
  · decide
  · decide

/-- C2: when a registered tool's handler (or the host capability operation
it calls) raises a failure, the `execute` wrapper returns a JSON object
carrying an `error` field: for `get_active_file`, a failing `vault.read`;
for `edit_file`, both a schema-parse failure and a failing `editFileTool`.
The failure never escapes the dispatcher boundary: the embedded wrappers
are total functions into `ToolResponse`, with no exceptional outcome. -/
theorem dispatch_contains_handler_failures :
    (∀ (f : ActiveFile) (msg : String),
      (getActiveFileExec (some f) true (.error msg)).hasErrorField = true) ∧
    (∀ (details : String) (tool : Unit → Except String String),
      (editFileExec (.error details) tool).hasErrorField = true) ∧
    (∀ (input : Unit) (msg : String),
      (editFileExec (.ok input) (fun _ => .error msg)).hasErrorField = true) := by
  refine ⟨fun f msg => rfl, fun details tool => rfl, fun input msg => rfl⟩

/-- C3: calling `startMCPServer` while a server reference is held leaves the
state unchanged except for an "already running" notice: the same single
server instance stays bound, and no second `MCPServer` is constructed. -/
theorem start_while_running_noop (bindResult : Except String Unit)
    (settings : Settings) (srv : ServerInstance) (ns : List NoticeMsg) :
    startMCPServer bindResult settings { mcpServer := some srv, notices := ns } =
      { mcpServer := some srv, notices := ns ++ [.serverAlreadyRunning] } := rfl

/-- C4: a `start` from the stopped state whose transport bind fails ends
stopped (no server reference retained), notices the failure (both
`server.startError` from `MCPServer.start` and `notices.serverStartFailed`
from the plugin), and `MCPServer.start` re-raises the bind failure to its
caller (the `Except.error e` component of `serverStart`). -/
theorem start_bind_failure_stopped (e : String) (settings : Settings)
    (ns : List NoticeMsg) :
    startMCPServer (.error e) settings { mcpServer := none, notices := ns } =
      { mcpServer := none,
        notices := ns ++ [.startError settings.port] ++ [.serverStartFailed e] } ∧
    serverStart (.error e) settings.port = (.error e, [.startError settings.port]) :=
  ⟨rfl, rfl⟩

/-- C5: `restartMCPServer` is exactly `stopMCPServer` followed by the fixed
500 ms delay followed by `startMCPServer` on the configuration current at
that moment; in particular when the bind succeeds, the port bound after a
restart is the port of the settings read at start time. -/
theorem restart_is_stop_delay_start (bindResult : Except String Unit)
    (settings : Settings) (s : PluginState) :
    restartMCPServer bindResult settings s =
      (startMCPServer bindResult settings (stopMCPServer s), 500) ∧
    (restartMCPServer (.ok ()) settings s).1.mcpServer =
      some { port := settings.port } := by
  constructor
  · rfl
  · show (startMCPServer (.ok ()) settings (stopMCPServer s)).mcpServer = _
    have h := stopMCPServer_mcpServer s
    cases hs : stopMCPServer s with
    | mk m n =>
      rw [hs] at h
      simp only at h
      subst h
      rfl

/-- C6: `get_active_file` with no active document returns exactly the object
`{"error": "No active file", "active": false}`, for every value of
`include_content` and independently of any `vault.read` outcome (no vault
content is read). -/
theorem get_active_file_none (includeContent : Bool)
    (readResult : Except String String) :
    getActiveFileExec none includeContent readResult =
      .obj [("error", .str "No active file"), ("active", .bool false)] := rfl

/-- C7 counterexample: for the `search_vault` schema's numeric `limit`
field, the numeric-string argument `"5"` is rejected with a type error, not
parsed to the number 5 (zod's plain `z.number()` does not coerce). -/
theorem validate_numeric_string_counterexample :
    validate searchVaultParams [("query", JVal.str "a"), ("limit", JVal.str "5")] =
      .error (.wrongType "limit" .number) := rfl

/-- C7 (amended): validation performs no coercion.  A numeric-string value
for the declared-numeric `limit` field is always rejected with an error
naming the field; and on success every validated field is either a verbatim
copy of the raw argument or a declared default — never a coerced value. -/
theorem validate_no_coercion :
    (∀ s : String,
      validate searchVaultParams [("query", JVal.str "x"), ("limit", JVal.str s)] =
        .error (.wrongType "limit" .number)) ∧
    (∀ (schema : Schema) (raw out : List (String × JVal)) (n : String) (v : JVal),
      validate schema raw = .ok out → (n, v) ∈ out →
      List.lookup n raw = some v ∨
        ∃ sp ∈ schema, sp.1 = n ∧ sp.2.default = some v) := by
  constructor
  · intro s
    rfl
  · intro schema
    induction schema with
    | nil =>
      intro raw out n v h hmem
      simp only [validate] at h
      cases h
      cases hmem
    | cons p rest ih =>
      intro raw out n v h hmem
      obtain ⟨name, spec⟩ := p
      simp only [validate] at h
      split at h
      case _ w hl =>
        split at h
        case _ hct =>
          cases hv : validate rest raw with
          | error e =>
            rw [hv] at h
            simp only [Except.map] at h
            exact Except.noConfusion h
          | ok out' =>
            rw [hv] at h
            simp only [Except.map, Except.ok.injEq] at h
            subst h
            rcases List.mem_cons.mp hmem with h1 | h2
            · injection h1 with hn hv'
              subst hn
              subst hv'
              exact Or.inl hl
            · rcases ih raw out' n v hv h2 with hraw | ⟨sp, hsp, hn, hd⟩
              · exact Or.inl hraw
              · exact Or.inr ⟨sp, List.mem_cons_of_mem _ hsp, hn, hd⟩
        case _ hct =>
          cases h
      case _ hl =>
        split at h
        case _ d hd =>
          cases hv : validate rest raw with
          | error e =>
            rw [hv] at h
            simp only [Except.map] at h
            exact Except.noConfusion h
          | ok out' =>
            rw [hv] at h
            simp only [Except.map, Except.ok.injEq] at h
            subst h
            rcases List.mem_cons.mp hmem with h1 | h2
            · injection h1 with hn hv'
              subst hn
              subst hv'
              exact Or.inr ⟨(n, spec), List.mem_cons_self _ _, rfl, hd⟩
            · rcases ih raw out' n v hv h2 with hraw | ⟨sp, hsp, hn, hdd⟩
              · exact Or.inl hraw
              · exact Or.inr ⟨sp, List.mem_cons_of_mem _ hsp, hn, hdd⟩
        case _ hd =>
          split at h
          case _ ho =>
            rcases ih raw out n v h hmem with hraw | ⟨sp, hsp, hn, hdd⟩
            · exact Or.inl hraw
            · exact Or.inr ⟨sp, List.mem_cons_of_mem _ hsp, hn, hdd⟩
          case _ ho =>
            cases h

/-- C7 witness: validating `search_vault` arguments lacking `limit` fills in
the declared default 20, and that validated entry is indeed the schema's
default, not a copy of a raw argument. -/
theorem validate_no_coercion_witness :
    List.lookup "limit" [("query", JVal.str "x")] = some (JVal.num 20) ∨
      ∃ sp ∈ searchVaultParams, sp.1 = "limit" ∧ sp.2.default = some (JVal.num 20) :=
  validate_no_coercion.2 searchVaultParams [("query", JVal.str "x")]
    [("query", JVal.str "x"), ("limit", JVal.num 20)] "limit" (JVal.num 20)
    rfl (by decide)

/-- C8: the transport error handler always logs, and emits a user
notification exactly when the error code differs from the benign
client-disconnect code -32001. -/
theorem transport_error_notice_iff (e : ErrorEvent) :
    (serverOnError e).1 = true ∧
    ((serverOnError e).2.isSome = true ↔ e.code ≠ -32001) := by
  refine ⟨rfl, ?_⟩
  unfold serverOnError
  by_cases h : e.code = -32001
  · simp [h]
  · simp [h]

/-- C9: `t(key, params)` is a function of its inputs and the loaded catalogs
(the embedding is a pure Lean function of exactly those), and resolves the
dotted key by the fallback chain: the current-language catalog first; if
absent there and the current language is not English, the English catalog;
if absent in both, the literal key — with the parameter placeholders
substituted into whichever result was chosen. -/
theorem t_fallback_chain (translations : Translations) (lang : Lang)
    (key : String) (params : List (String × String)) :
    (∀ s, (getCatalog translations lang).bind (findTr (jsSplit key ".")) = some s →
      tLookup translations lang key params = substParams params s) ∧
    (∀ s, (getCatalog translations lang).bind (findTr (jsSplit key ".")) = none →
      lang ≠ Lang.en → findTr (jsSplit key ".") translations.en = some s →
      tLookup translations lang key params = substParams params s) ∧
    ((getCatalog translations lang).bind (findTr (jsSplit key ".")) = none →
      (lang = Lang.en ∨ findTr (jsSplit key ".") translations.en = none) →
      tLookup translations lang key params = substParams params key) := by
  refine ⟨?_, ?_, ?_⟩
  · intro s h
    simp only [tLookup]
    rw [h]
    simp
  · intro s h hne hen
    simp only [tLookup]
    rw [h]
    simp [hne, hen]
  · intro h hcase
    simp only [tLookup]
    rw [h]
    rcases hcase with hl | henone
    · simp [hl]
    · by_cases hl : lang = Lang.en
      · simp [hl]
      · simp [hl, henone]

/-- C9 witness: with an empty Chinese catalog and an English catalog binding
`a` to `"hi {name}"`, looking up `a` in Chinese falls back to the English
entry and substitutes the `name` parameter. -/
theorem t_fallback_chain_witness :
    tLookup { en := Tr.node [("a", Tr.leaf "hi \x7bname\x7d")], zh := some (Tr.node []) }
      Lang.zh "a" [("name", "Bob")] = "hi Bob" := by
  have h := (t_fallback_chain
      { en := Tr.node [("a", Tr.leaf "hi \x7bname\x7d")], zh := some (Tr.node []) }
      Lang.zh "a" [("name", "Bob")]).2.1 "hi \x7bname\x7d" rfl (by decide) rfl
  rw [h]
  rfl

/-- The length of the list produced by a JavaScript `slice(0, e)` with a
nonnegative end index is at most `e`. -/
theorem jsSliceTo_length_le {α : Type} (l : List α) (e : Int) (he : 0 ≤ e) :
    ((jsSliceTo l e).length : Int) ≤ e := by
  unfold jsSliceTo
  rw [if_neg (not_lt.mpr he)]
  calc ((l.take e.toNat).length : Int)
      ≤ (e.toNat : Int) := by exact_mod_cast List.length_take_le e.toNat l
    _ = e := Int.toNat_of_nonneg he

/-- C10 counterexample: with three matching files and an explicit limit of
-1 (a nonzero number), `search_vault` returns 2 results — JavaScript's
`slice(0, -1)` drops one item from the end — so the returned length exceeds
the claim's effective limit of -1. -/
theorem search_vault_negative_limit_counterexample :
    searchVaultExec
      [⟨"x1.md", "x1.md", "x1"⟩, ⟨"x2.md", "x2.md", "x2"⟩, ⟨"x3.md", "x3.md", "x3"⟩]
      (fun _ => .ok "") "x" none (some (-1)) =
      .ok "x" 2 [⟨"x1.md", "x1.md", "x1", none⟩, ⟨"x2.md", "x2.md", "x2", none⟩] ∧
    ¬((2 : Int) ≤ -1) := by
  constructor
  · decide
  · decide

/-- C10 (amended): every successful `search_vault` response has
`count = results.length`, and when the validated limit (the supplied limit,
or 20 if the field was absent) is nonnegative, the length never exceeds the
effective limit — the supplied limit when nonzero, 20 when it is 0 or the
field was absent (`input.limit || 20` treats 0 as falsy). -/
theorem search_vault_count_le_limit (files : List MdFile)
    (readF : String → Except String String) (query : String)
    (includeContentArg : Option Bool) (limitArg : Option Int)
    (q : String) (c : Nat) (rs : List SearchEntry)
    (h : searchVaultExec files readF query includeContentArg limitArg = .ok q c rs)
    (hnn : 0 ≤ limitArg.getD 20) :
    c = rs.length ∧
    (rs.length : Int) ≤ (if limitArg.getD 20 = 0 then 20 else limitArg.getD 20) := by
  simp only [searchVaultExec] at h
  cases hb : buildResults readF (includeContentArg.getD false)
      (jsSliceTo (files.filter fun f => jsIncludes (jsToLower f.path) (jsToLower query))
        (if limitArg.getD 20 = 0 then 20 else limitArg.getD 20)) with
  | error e =>
    rw [hb] at h
    cases h
  | ok results =>
    rw [hb] at h
    cases h
    have hlen := buildResults_length readF (includeContentArg.getD false) _ _ hb
    refine ⟨rfl, ?_⟩
    rw [hlen]
    apply jsSliceTo_length_le
    by_cases h0 : limitArg.getD 20 = 0
    · rw [if_pos h0]
      norm_num
    · rw [if_neg h0]
      exact hnn

/-- C10 witness: with a positive limit 2 and three matching files, the
response carries exactly 2 results, and 2 is within the effective limit. -/
theorem search_vault_count_le_limit_witness :
    (2 : Nat) = ([⟨"x1.md", "x1.md", "x1", none⟩,
        ⟨"x2.md", "x2.md", "x2", none⟩] : List SearchEntry).length ∧
    ((([⟨"x1.md", "x1.md", "x1", none⟩,
        ⟨"x2.md", "x2.md", "x2", none⟩] : List SearchEntry).length : Int) ≤
      if (some (2 : Int)).getD 20 = 0 then 20 else (some (2 : Int)).getD 20) :=
  search_vault_count_le_limit
    [⟨"x1.md", "x1.md", "x1"⟩, ⟨"x2.md", "x2.md", "x2"⟩, ⟨"x3.md", "x3.md", "x3"⟩]
    (fun _ => .ok "") "x" none (some 2) "x" 2
    [⟨"x1.md", "x1.md", "x1", none⟩, ⟨"x2.md", "x2.md", "x2", none⟩]
    (by decide) (by decide)

end ObsidianMCP
